import Mathlib

/-!
Verification of the GPG-agent bridge (`trezor_agent/gpg/agent.py`).

The module is modelled as a shallow embedding over `List Nat`: a Python 2
byte string is a list of byte values.  Python exceptions are modelled by
the `PyErr` error type of an `Except` result.  The recursive S-expression
parser `_parse` is embedded with an explicit fuel argument so that all
definitions stay structurally recursive and executable; `pparse` closes
the fuel with a bound that is proved sufficient for all inputs appearing
in the theorems below (via the monotonicity lemma `parse_mono`).
-/

namespace GpgAgent

/-- Python exception kinds raised by the embedded code.  `blocked` models a
socket read that would block forever (no further data from the peer);
`outOfFuel` is the fuel-exhaustion marker of the embedded recursion and is
never returned at the fuel supplied by `pparse` on the inputs considered. -/
inductive PyErr where
  | valueError
  | assertionError
  | keyError
  | indexError
  | typeError
  | blocked
  | outOfFuel
deriving DecidableEq, Repr

/-- ASCII whitespace stripped by Python `int(str)` and `str.strip()`:
space, tab, LF, VT, FF, CR. -/
def isPySpace (c : Nat) : Bool :=
  c = 32 || c = 9 || c = 10 || c = 11 || c = 12 || c = 13

/-- `bytes.strip()` / the whitespace stripping of `int(str, base)`. -/
def pyStripWS (l : List Nat) : List Nat :=
  ((l.dropWhile isPySpace).reverse.dropWhile isPySpace).reverse

/-- Value of an ASCII digit character in the given base (0-9, a-f, A-F). -/
def digitVal (base c : Nat) : Option Nat :=
  if 48 ≤ c ∧ c ≤ 57 ∧ c - 48 < base then some (c - 48)
  else if 97 ≤ c ∧ c ≤ 102 ∧ c - 87 < base then some (c - 87)
  else if 65 ≤ c ∧ c ≤ 70 ∧ c - 55 < base then some (c - 55)
  else none

/-- Value of a nonempty all-digit string in the given base. -/
def digitsValue (base : Nat) (l : List Nat) : Option Nat :=
  if l ≠ [] ∧ l.all (fun c => (digitVal base c).isSome) then
    some (l.foldl (fun a c => a * base + (digitVal base c).getD 0) 0)
  else none

/-- The optional `0x` / `0X` prefix accepted by Python `int(str, 16)`. -/
def stripHexPfx (base : Nat) (l : List Nat) : List Nat :=
  if base = 16 then
    match l with
    | 48 :: c :: rest => if c = 120 ∨ c = 88 then rest else l
    | _ => l
  else l

/-- Python 2 `int(str, base)`: strips surrounding whitespace, accepts an
optional sign and (for base 16) an optional `0x` prefix, then requires a
nonempty run of digits valid in the base.  `none` models `ValueError`. -/
def pyInt (base : Nat) (l : List Nat) : Option Int :=
  match pyStripWS l with
  | [] => none
  | c :: cs =>
    if c = 43 then (digitsValue base (stripHexPfx base cs)).map (fun n => (n : Int))
    else if c = 45 then (digitsValue base (stripHexPfx base cs)).map (fun n => -(n : Int))
    else (digitsValue base (stripHexPfx base (c :: cs))).map (fun n => (n : Int))

/-- Python slicing `s[:n]` for a possibly negative `n`. -/
def pyTake (n : Int) (s : List Nat) : List Nat :=
  if n < 0 then s.take (s.length - (-n).toNat) else s.take n.toNat

/-- Python slicing `s[n:]` for a possibly negative `n`. -/
def pyDrop (n : Int) (s : List Nat) : List Nat :=
  if n < 0 then s.drop (s.length - (-n).toNat) else s.drop n.toNat

/-- Python `s.split(sep, 1)` restricted to the case used by the code:
`some (before, after)` on the first occurrence of `sep`, `none` when `sep`
does not occur (in which case the 2-tuple unpacking raises `ValueError`). -/
def splitFirst (sep : Nat) : List Nat → Option (List Nat × List Nat)
  | [] => none
  | c :: rest =>
    if c = sep then some ([], rest)
    else (splitFirst sep rest).map (fun p => (c :: p.1, p.2))

/-- Fuelled helper for `decRepr` (the fuel only makes the `n / 10`
recursion structural; `decRepr` supplies enough). -/
def decReprAux : Nat → Nat → List Nat
  | 0, _ => []
  | fuel + 1, n => if n < 10 then [48 + n] else decReprAux fuel (n / 10) ++ [48 + n % 10]

/-- Python `str(n)` for a natural number: decimal ASCII digits. -/
def decRepr (n : Nat) : List Nat := decReprAux (n + 1) n

/-- The value parsed by `_parse`: a byte-string atom or a list of parsed
values (the first list element is the atom naming the list). -/
inductive SExpr where
  | atom (s : List Nat)
  | list (items : List SExpr)

/-- `_unescape`: scan left to right; at `%` take the next (up to) two bytes,
convert with `int(str(..), 16)` and substitute the value back as one byte.
The in-place `bytearray` surgery of the source advances past the
substituted byte, which is exactly this left-to-right recursion.  A value
outside 0..255 (possible via int's sign leniency) fails the `bytearray`
slice assignment with `ValueError`. -/
def unescape : List Nat → Except PyErr (List Nat)
  | [] => .ok []
  | b :: rest =>
    if b = 37 then
      match rest with
      | [] => .error .valueError
      | [d] =>
        match pyInt 16 [d] with
        | none => .error .valueError
        | some v =>
          if 0 ≤ v ∧ v < 256 then .ok [v.toNat] else .error .valueError
      | d1 :: d2 :: rest2 =>
        match pyInt 16 [d1, d2] with
        | none => .error .valueError
        | some v =>
          if 0 ≤ v ∧ v < 256 then
            match unescape rest2 with
            | .error e => .error e
            | .ok t => .ok (v.toNat :: t)
          else .error .valueError
    else
      match unescape rest with
      | .error e => .error e
      | .ok t => .ok (b :: t)

/-- `_parse_term`: split at the first `:`, read the length with `int`, then
slice.  Note the Python slices silently truncate when the buffer is
shorter than the declared length. -/
def parse_term (s : List Nat) : Except PyErr (List Nat × List Nat) :=
  match splitFirst 58 s with
  | none => .error .valueError
  | some (sz, rest) =>
    match pyInt 10 sz with
    | none => .error .valueError
    | some n => .ok (pyTake n rest, pyDrop n rest)

mutual

/-- `_parse`, with fuel: `(` opens a list whose first element is the naming
atom, anything else is a term.  `s[0]` on an empty buffer raises
`IndexError`. -/
def parseF : Nat → List Nat → Except PyErr (SExpr × List Nat)
  | 0, _ => .error .outOfFuel
  | _ + 1, [] => .error .indexError
  | fuel + 1, c :: t =>
    if c = 40 then
      match parse_term t with
      | .error e => .error e
      | .ok (name, rest) => parseLoopF fuel [SExpr.atom name] rest
    else
      match parse_term (c :: t) with
      | .error e => .error e
      | .ok (a, rest) => .ok (SExpr.atom a, rest)

/-- The `while s[0] != ')'` loop of `_parse`, accumulating child values. -/
def parseLoopF : Nat → List SExpr → List Nat → Except PyErr (SExpr × List Nat)
  | 0, _, _ => .error .outOfFuel
  | _ + 1, _, [] => .error .indexError
  | fuel + 1, acc, c :: t =>
    if c = 41 then .ok (SExpr.list acc, t)
    else
      match parseF fuel (c :: t) with
      | .error e => .error e
      | .ok (v, rest) => parseLoopF fuel (acc ++ [v]) rest

end

/-- `_parse` with its fuel closed; `2 * length + 1` is enough fuel for any
input (each unit of fuel spent either consumes a byte or immediately
precedes one that does). -/
def pparse (s : List Nat) : Except PyErr (SExpr × List Nat) :=
  parseF (2 * s.length + 1) s

/-- Python `str.replace(old, new)` for a single-byte pattern `old`. -/
def replaceByte (old : Nat) (rep : List Nat) (s : List Nat) : List Nat :=
  s.flatMap (fun c => if c = old then rep else [c])

/-- The escaping loop of `_serialize_point`: replace `%`, `\n`, `\r` (in
that order) by `%` plus two uppercase hex digits (`%25`, `%0A`, `%0D`). -/
def escape (s : List Nat) : List Nat :=
  replaceByte 13 [37, 48, 68] (replaceByte 10 [37, 48, 65] (replaceByte 37 [37, 50, 53] s))

/-- The length-prefixed atom framing `"{}:".format(len(data)) + data`
(first line of `_serialize_point`). -/
def serializeAtom (x : List Nat) : List Nat :=
  decRepr x.length ++ 58 :: x

/-- `_serialize_point`: length-prefix the point, escape it, and wrap it in
a `(5:value...)` list.  `[40, 53, 58, 118, 97, 108, 117, 101]` is
ASCII `"(5:value"` and `41` is `")"`. -/
def serialize_point (data : List Nat) : List Nat :=
  [40, 53, 58, 118, 97, 108, 117, 101] ++ escape (serializeAtom data) ++ [41]

/-- Modelled from the spec: `util.bytes2num` (not part of this source
file) interprets a byte string as an unsigned big-endian integer. -/
def bytes2num (b : List Nat) : Nat :=
  b.foldl (fun a c => a * 256 + c) 0

/-- Python 2-tuple unpacking `x, y = v` of a parsed value: a two-element
list unpacks into its elements, a two-byte string into its bytes;
anything else raises `ValueError`. -/
def unpack2 : SExpr → Except PyErr (SExpr × SExpr)
  | .atom [a, b] => .ok (.atom [a], .atom [b])
  | .atom _ => .error .valueError
  | .list [a, b] => .ok (a, b)
  | .list _ => .error .valueError

/-- Python 1-tuple unpacking `(x,) = v` of a parsed value. -/
def unpack1 : SExpr → Except PyErr SExpr
  | .atom [a] => .ok (.atom [a])
  | .atom _ => .error .valueError
  | .list [a] => .ok a
  | .list _ => .error .valueError

/-- Python `==` between a parsed value and a byte-string literal (a list
is never equal to a string). -/
def eqAtom (e : SExpr) (s : List Nat) : Bool :=
  match e with
  | .atom a => a == s
  | .list _ => false

/-- Python `v[0]` on a parsed value (`IndexError` when empty). -/
def pyGet0 : SExpr → Except PyErr SExpr
  | .atom [] => .error .indexError
  | .atom (c :: _) => .ok (.atom [c])
  | .list [] => .error .indexError
  | .list (x :: _) => .ok x

/-- Python `v[1:]` on a parsed value. -/
def pyTail : SExpr → SExpr
  | .atom s => .atom (s.drop 1)
  | .list l => .list (l.drop 1)

/-- ASCII `"r"` and `"s"`, `"sig-val"`, `"rsa"`, `"ecdsa"`. -/
def chR : List Nat := [114]

def chS : List Nat := [115]

def chSigVal : List Nat := [115, 105, 103, 45, 118, 97, 108]

def chRsa : List Nat := [114, 115, 97]

def chEcdsa : List Nat := [101, 99, 100, 115, 97]

/-- `_parse_ecdsa_sig`: `(r, sig_r), (s, sig_s) = args`, assert the labels
are `"r"` then `"s"`, and return both values as big-endian integers.
(`bytes2num` applied to a nested list — impossible for parser output of
the shapes considered — is modelled as `TypeError`.) -/
def parse_ecdsa_sig (args : SExpr) : Except PyErr (List Nat) :=
  match unpack2 args with
  | .error e => .error e
  | .ok (p1, p2) =>
    match unpack2 p1 with
    | .error e => .error e
    | .ok (r, sig_r) =>
      match unpack2 p2 with
      | .error e => .error e
      | .ok (s, sig_s) =>
        if ¬ eqAtom r chR then .error .assertionError
        else if ¬ eqAtom s chS then .error .assertionError
        else
          match sig_r, sig_s with
          | .atom br, .atom bs => .ok [bytes2num br, bytes2num bs]
          | _, _ => .error .typeError

/-- `_parse_rsa_sig`: `(s, sig_s), = args`, assert the label is `"s"`, and
return the value as a big-endian integer. -/
def parse_rsa_sig (args : SExpr) : Except PyErr (List Nat) :=
  match unpack1 args with
  | .error e => .error e
  | .ok p =>
    match unpack2 p with
    | .error e => .error e
    | .ok (s, sig_s) =>
      if ¬ eqAtom s chS then .error .assertionError
      else
        match sig_s with
        | .atom bs => .ok [bytes2num bs]
        | _ => .error .typeError

/-- `_parse_sig`: unpack `label, sig`, assert `label == 'sig-val'`, then
dispatch on `sig[0]` through the dict `{'rsa': .., 'ecdsa': ..}`: an
unknown string key raises `KeyError`, an unhashable (list) key raises
`TypeError`. -/
def parse_sig (sigv : SExpr) : Except PyErr (List Nat) :=
  match unpack2 sigv with
  | .error e => .error e
  | .ok (label, sg) =>
    if ¬ eqAtom label chSigVal then .error .assertionError
    else
      match pyGet0 sg with
      | .error e => .error e
      | .ok algo =>
        match algo with
        | .atom a =>
          if a = chRsa then parse_rsa_sig (pyTail sg)
          else if a = chEcdsa then parse_ecdsa_sig (pyTail sg)
          else .error .keyError
        | .list _ => .error .typeError

/-- One uppercase hex digit (`binascii.hexlify(..).upper()`). -/
def hexDigitU (n : Nat) : Nat :=
  if n < 10 then 48 + n else 55 + n

/-- `_hex`: uppercase hex encoding of a byte string. -/
def pyHex (b : List Nat) : List Nat :=
  b.flatMap (fun c => [hexDigitU (c / 16), hexDigitU (c % 16)])

/-- ASCII `"OK"`. -/
def chOK : List Nat := [79, 75]

/-- `sign`: the client signing handshake.  The transport is modelled as
the script `replies` of lines the agent sends back, consumed one per
read; an exhausted script means the read would block (`blocked`).  The
commands sent (RESET, OPTION ttyname=.., SIGKEY .., SETHASH 8 ..,
SETKEYDESC .., PKSIGN) are recorded in `_cmds`; their bytes do not
influence a scripted reply.  Failed `assert`s on replies raise
`AssertionError`; after `PKSIGN` one further line is read, stripped,
unescaped, split at the first space (prefix must be `"D"` = `[68]`),
parsed, checked for an empty remainder, and passed to `parse_sig`. -/
def sign (keygrip digest tty : List Nat) (replies : List (List Nat)) :
    Except PyErr (List Nat) :=
  let _cmds : List (List Nat) :=
    [[82, 69, 83, 69, 84],
     [79, 80, 84, 73, 79, 78, 32, 116, 116, 121, 110, 97, 109, 101, 61] ++ tty,
     [83, 73, 71, 75, 69, 89, 32] ++ keygrip,
     [83, 69, 84, 72, 65, 83, 72, 32, 56, 32] ++ pyHex digest,
     [83, 69, 84, 75, 69, 89, 68, 69, 83, 67],
     [80, 75, 83, 73, 71, 78]]
  if digest.length ≠ 32 then .error .assertionError else
  match replies with
  | [] => .error .blocked
  | r1 :: replies =>
    if ¬ chOK.isPrefixOf r1 then .error .assertionError else
    match replies with
    | [] => .error .blocked
    | r2 :: replies =>
      if r2 ≠ chOK then .error .assertionError else
      match replies with
      | [] => .error .blocked
      | r3 :: replies =>
        if r3 ≠ chOK then .error .assertionError else
        match replies with
        | [] => .error .blocked
        | r4 :: replies =>
          if r4 ≠ chOK then .error .assertionError else
          match replies with
          | [] => .error .blocked
          | r5 :: replies =>
            if r5 ≠ chOK then .error .assertionError else
            match replies with
            | [] => .error .blocked
            | r6 :: replies =>
              if r6 ≠ chOK then .error .assertionError else
              match replies with
              | [] => .error .blocked
              | line0 :: _ =>
                match unescape (pyStripWS line0) with
                | .error e => .error e
                | .ok line =>
                  match splitFirst 32 line with
                  | none => .error .valueError
                  | some (pfx, sg) =>
                    if pfx ≠ [68] then .error .valueError
                    else
                      match pparse sg with
                      | .error e => .error e
                      | .ok (sexp, leftover) =>
                        if leftover ≠ [] then .error .assertionError
                        else parse_sig sexp

/-- An I/O event on the server's connection socket. -/
inductive Event where
  | sent (data : List Nat)
  | received (line : List Nat)
deriving DecidableEq, Repr

/-- ASCII `"OK pleased to see you\n"`. -/
def greetingMsg : List Nat :=
  [79, 75, 32, 112, 108, 101, 97, 115, 101, 100, 32, 116, 111, 32, 115, 101,
   101, 32, 121, 111, 117, 10]

/-- ASCII `"GETINFO version"`. -/
def cmdGetInfo : List Nat := [71, 69, 84, 73, 78, 70, 79, 32, 118, 101, 114, 115, 105, 111, 110]

/-- ASCII `"AGENT_ID"`. -/
def cmdAgentId : List Nat := [65, 71, 69, 78, 84, 95, 73, 68]

/-- ASCII `"PKDECRYPT"`. -/
def cmdPkDecrypt : List Nat := [80, 75, 68, 69, 67, 82, 89, 80, 84]

/-- ASCII `"S INQUIRE_MAXLEN 4096\nINQUIRE CIPHERTEXT\n"`. -/
def inquireMsg : List Nat :=
  [83, 32, 73, 78, 81, 85, 73, 82, 69, 95, 77, 65, 88, 76, 69, 78, 32, 52,
   48, 57, 54, 10, 73, 78, 81, 85, 73, 82, 69, 32, 67, 73, 80, 72, 69, 82,
   84, 69, 88, 84, 10]

/-- ASCII `"OK\n"`. -/
def okMsg : List Nat := [79, 75, 10]

/-- A `"D <data>\nOK\n"` reply. -/
def dMsg (data : List Nat) : List Nat :=
  [68, 32] ++ data ++ [10, 79, 75, 10]

/-- One `dict(..)` item: a two-element sequence becomes a key/value pair
(a two-byte string splits into its bytes); a list key is unhashable
(`TypeError`); any other shape fails the update (`ValueError`). -/
def toPair : SExpr → Except PyErr (List Nat × SExpr)
  | .atom [a, b] => .ok ([a], .atom [b])
  | .atom _ => .error .valueError
  | .list [.atom k, v] => .ok (k, v)
  | .list [.list _, _] => .error .typeError
  | .list _ => .error .valueError

/-- Python `dict(v)` over a parsed value, as an association list in
insertion order. -/
def toDict : SExpr → Except PyErr (List (List Nat × SExpr))
  | .atom [] => .ok []
  | .atom _ => .error .valueError
  | .list l => l.mapM toPair

/-- `d[key]` on a built dict: the latest binding wins; a missing key
raises `KeyError`. -/
def dictGet (key : List Nat) (prs : List (List Nat × SExpr)) : Except PyErr SExpr :=
  match prs.reverse.find? (fun p => p.1 == key) with
  | some p => .ok p.2
  | none => .error .keyError

/-- `dict(exp[1][1:])['e']` from the server's PKDECRYPT branch
(`[101]` is ASCII `"e"`). -/
def getPubkeyE (exp : SExpr) : Except PyErr SExpr :=
  match pyGet0 (pyTail exp) with
  | .error e => .error e
  | .ok e1 =>
    match toDict (pyTail e1) with
    | .error e => .error e
    | .ok prs => dictGet [101] prs

/-- The server's per-connection command loop (the inner `while True` of
`server`).  `inputs` is the script of lines the client sends; running out
of script where the code would read again is modelled as `blocked`.  The
pair returned is the event trace and the exception (if any) that aborted
the loop.  In the PKDECRYPT branch the signing capability is the function
`signer` from the challenge bytes to the returned point; a non-atom
challenge value is modelled as `TypeError` (the external call cannot take
a parsed list). -/
def connLoop (signer : List Nat → List Nat) (version agentId : List Nat) :
    List (List Nat) → List Event × Option PyErr
  | [] => ([], some .blocked)
  | line :: rest =>
    if line = [] then ([.received line], none)
    else if line = cmdPkDecrypt then
      match rest with
      | [] => ([.received line, .sent inquireMsg], some .blocked)
      | dline :: _ =>
        let evs := [.received line, .sent inquireMsg, .received dline]
        match splitFirst 32 dline with
        | none => (evs, some .valueError)
        | some (pfx, payload) =>
          if pfx ≠ [68] then (evs, some .assertionError)
          else
            match unescape payload with
            | .error e => (evs, some e)
            | .ok w =>
              match pparse w with
              | .error e => (evs, some e)
              | .ok (exp, _leftover) =>
                match getPubkeyE exp with
                | .error e => (evs, some e)
                | .ok (.list _) => (evs, some .typeError)
                | .ok (.atom pkb) =>
                  let q := signer pkb
                  if q.length ≠ 65 then (evs, some .assertionError)
                  else if q.take 1 ≠ [4] then (evs, some .assertionError)
                  else (evs ++ [.sent (dMsg (serialize_point q))], none)
    else
      let reply :=
        if line = cmdGetInfo then dMsg version
        else if line = cmdAgentId then dMsg agentId
        else okMsg
      (.received line :: .sent reply ::
        (connLoop signer version agentId rest).fst,
       (connLoop signer version agentId rest).snd)

/-- One accepted connection of `server`: greet, then run the command
loop. -/
def handleConn (signer : List Nat → List Nat) (version agentId : List Nat)
    (inputs : List (List Nat)) : List Event × Option PyErr :=
  (.sent greetingMsg :: (connLoop signer version agentId inputs).fst,
   (connLoop signer version agentId inputs).snd)

/-- The parsed form of `("sig-val" ("ecdsa" ("r" rb) ("s" sb)))`. -/
def sigvalExpr (rb sb : List Nat) : SExpr :=
  .list [.atom chSigVal,
    .list [.atom chEcdsa, .list [.atom chR, .atom rb], .list [.atom chS, .atom sb]]]

/-- The canonical wire form of `("sig-val" ("ecdsa" ("r" rb) ("s" sb)))`:
`(7:sig-val(5:ecdsa(1:r<rb>)(1:s<sb>)))`. -/
def sigvalWire (rb sb : List Nat) : List Nat :=
  [40, 55, 58] ++ (chSigVal ++ ([40, 53, 58] ++ (chEcdsa ++
    ([40, 49, 58, 114] ++ (serializeAtom rb ++ (41 :: ([40, 49, 58, 115] ++
      (serializeAtom sb ++ [41, 41, 41]))))))))

/-- ASCII `"value"`. -/
def chValue : List Nat := [118, 97, 108, 117, 101]

/-- A concrete ciphertext S-expression `(7:enc-val(3:rsa(1:e1:x)))` used
to drive the server's PKDECRYPT branch (its `"e"` field is the byte
`"x"` = 120). -/
def encWire : List Nat :=
  [40, 55, 58, 101, 110, 99, 45, 118, 97, 108, 40, 51, 58, 114, 115, 97,
   40, 49, 58, 101, 49, 58, 120, 41, 41, 41]

/-! ### Helper lemmas -/

theorem dropWhile_eq_self_of (p : Nat → Bool) (l : List Nat)
    (h : ∀ c ∈ l, p c = false) : l.dropWhile p = l := by
  cases l with
  | nil => rfl
  | cons a l =>
    rw [List.dropWhile_cons_of_neg]
    simp [h a (by simp)]

theorem pyStripWS_eq_self (l : List Nat) (h : ∀ c ∈ l, isPySpace c = false) :
    pyStripWS l = l := by
  unfold pyStripWS
  rw [dropWhile_eq_self_of _ _ h,
    dropWhile_eq_self_of _ _ (fun c hc => h c (List.mem_reverse.mp hc)),
    List.reverse_reverse]

theorem digit_not_space (c : Nat) (h1 : 48 ≤ c) (h2 : c ≤ 57) :
    isPySpace c = false := by
  simp only [isPySpace, Bool.or_eq_false_iff, decide_eq_false_iff_not]
  omega

theorem digitVal_of_digit (c : Nat) (h1 : 48 ≤ c) (h2 : c ≤ 57) :
    digitVal 10 c = some (c - 48) := by
  unfold digitVal
  rw [if_pos ⟨h1, h2, by omega⟩]

theorem decReprAux_spec : ∀ fuel n, n < fuel →
    decReprAux fuel n ≠ [] ∧ (∀ c ∈ decReprAux fuel n, 48 ≤ c ∧ c ≤ 57) ∧
      (decReprAux fuel n).foldl (fun a c => a * 10 + (digitVal 10 c).getD 0) 0 = n := by
  intro fuel
  induction fuel with
  | zero => intro n h; omega
  | succ fuel ih =>
    intro n h
    by_cases h10 : n < 10
    · refine ⟨by simp [decReprAux, h10], ?_, ?_⟩
      · intro c hc
        simp [decReprAux, h10] at hc
        omega
      · simp [decReprAux, h10, digitVal_of_digit (48 + n) (by omega) (by omega)]
    · have hdiv : n / 10 < n := Nat.div_lt_self (by omega) (by omega)
      obtain ⟨hne, hdig, hval⟩ := ih (n / 10) (by omega)
      simp only [decReprAux, if_neg h10]
      refine ⟨by simp, ?_, ?_⟩
      · intro c hc
        rcases List.mem_append.mp hc with hm | hm
        · exact hdig c hm
        · simp at hm
          omega
      · rw [List.foldl_append, hval]
        simp [digitVal_of_digit (48 + n % 10) (by omega) (by omega)]
        omega

theorem decRepr_ne_nil (n : Nat) : decRepr n ≠ [] :=
  (decReprAux_spec (n + 1) n (by omega)).1

theorem decRepr_digits (n : Nat) : ∀ c ∈ decRepr n, 48 ≤ c ∧ c ≤ 57 :=
  (decReprAux_spec (n + 1) n (by omega)).2.1

theorem digitsValue_decRepr (n : Nat) : digitsValue 10 (decRepr n) = some n := by
  have hall : (decRepr n).all (fun c => (digitVal 10 c).isSome) = true := by
    rw [List.all_eq_true]
    intro c hc
    rw [digitVal_of_digit c (decRepr_digits n c hc).1 (decRepr_digits n c hc).2]
    rfl
  have hfold := (decReprAux_spec (n + 1) n (by omega)).2.2
  rw [show decReprAux (n + 1) n = decRepr n from rfl] at hfold
  unfold digitsValue
  rw [if_pos ⟨decRepr_ne_nil n, hall⟩, hfold]

theorem pyInt_decRepr (n : Nat) : pyInt 10 (decRepr n) = some (n : Int) := by
  obtain ⟨c, cs, hcc⟩ := List.exists_cons_of_ne_nil (decRepr_ne_nil n)
  have hc : 48 ≤ c ∧ c ≤ 57 := decRepr_digits n c (by rw [hcc]; simp)
  have hstrip : pyStripWS (decRepr n) = c :: cs := by
    rw [pyStripWS_eq_self _ (fun d hd =>
      digit_not_space d (decRepr_digits n d hd).1 (decRepr_digits n d hd).2), hcc]
  have hdv : digitsValue 10 (stripHexPfx 10 (c :: cs)) = some n := by
    rw [show stripHexPfx 10 (c :: cs) = c :: cs by simp [stripHexPfx], ← hcc,
      digitsValue_decRepr]
  simp only [pyInt, hstrip, if_neg (show ¬ c = 43 by omega),
    if_neg (show ¬ c = 45 by omega), hdv]
  rfl

theorem splitFirst_append (sep : Nat) : ∀ pre t, (∀ c ∈ pre, c ≠ sep) →
    splitFirst sep (pre ++ sep :: t) = some (pre, t) := by
  intro pre
  induction pre with
  | nil => intro t _; simp [splitFirst]
  | cons c pre ih =>
    intro t h
    have hc : c ≠ sep := h c (by simp)
    have ih2 := ih t (fun d hd => h d (by simp [hd]))
    simp [List.cons_append, splitFirst, if_neg hc, ih2]

theorem parse_term_pre (pre x rest : List Nat)
    (hd : ∀ c ∈ pre, 48 ≤ c ∧ c ≤ 57)
    (hval : pyInt 10 pre = some (x.length : Int)) :
    parse_term (pre ++ 58 :: (x ++ rest)) = .ok (x, rest) := by
  have hsp := splitFirst_append 58 pre (x ++ rest) (fun c hcp => by
    have := hd c hcp; omega)
  have h1 : ¬ ((x.length : Int) < 0) := by omega
  simp only [parse_term, hsp, hval, pyTake, pyDrop, if_neg h1, Int.toNat_ofNat]
  rw [List.take_left, List.drop_left]

theorem parse_term_serAtom (x rest : List Nat) :
    parse_term (serializeAtom x ++ rest) = .ok (x, rest) := by
  have hshape : serializeAtom x ++ rest = decRepr x.length ++ 58 :: (x ++ rest) := by
    simp [serializeAtom]
  rw [hshape]
  exact parse_term_pre _ _ _ (decRepr_digits _) (pyInt_decRepr _)

theorem parseF_of_parse_term (f : Nat) (c : Nat) (t a rest : List Nat)
    (hc : c ≠ 40) (h : parse_term (c :: t) = .ok (a, rest)) :
    parseF (f + 1) (c :: t) = .ok (.atom a, rest) := by
  simp only [parseF, if_neg hc, h]

theorem parseF_atom_pre (f : Nat) (pre x rest : List Nat)
    (hd : ∀ c ∈ pre, 48 ≤ c ∧ c ≤ 57) (hne : pre ≠ [])
    (hval : pyInt 10 pre = some (x.length : Int)) :
    parseF (f + 1) (pre ++ 58 :: (x ++ rest)) = .ok (.atom x, rest) := by
  obtain ⟨c, cs, hcc⟩ := List.exists_cons_of_ne_nil hne
  have hc := hd c (by rw [hcc]; simp)
  have hshape : pre ++ 58 :: (x ++ rest) = c :: (cs ++ 58 :: (x ++ rest)) := by
    rw [hcc]; rfl
  rw [hshape]
  exact parseF_of_parse_term f c _ x rest (by omega)
    (by rw [← hshape]; exact parse_term_pre pre x rest hd hval)

theorem parseF_atom (f : Nat) (x rest : List Nat) :
    parseF (f + 1) (serializeAtom x ++ rest) = .ok (.atom x, rest) := by
  have hshape : serializeAtom x ++ rest = decRepr x.length ++ 58 :: (x ++ rest) := by
    simp [serializeAtom]
  rw [hshape]
  exact parseF_atom_pre f _ x rest (decRepr_digits _) (decRepr_ne_nil _) (pyInt_decRepr _)

theorem parseF_list (f : Nat) (t name rest : List Nat) (v : SExpr) (r : List Nat)
    (h1 : parse_term t = .ok (name, rest))
    (h2 : parseLoopF f [SExpr.atom name] rest = .ok (v, r)) :
    parseF (f + 1) (40 :: t) = .ok (v, r) := by
  simp [parseF, h1, h2]

theorem parseLoopF_close (f : Nat) (acc : List SExpr) (t : List Nat) :
    parseLoopF (f + 1) acc (41 :: t) = .ok (.list acc, t) := by
  simp [parseLoopF]

theorem parseLoopF_step (f : Nat) (acc : List SExpr) (c : Nat) (t : List Nat)
    (v : SExpr) (s2 : List Nat) (r2 : SExpr × List Nat) (hc : c ≠ 41)
    (h1 : parseF f (c :: t) = .ok (v, s2))
    (h2 : parseLoopF f (acc ++ [v]) s2 = .ok r2) :
    parseLoopF (f + 1) acc (c :: t) = .ok r2 := by
  simp only [parseLoopF, if_neg hc, h1, h2]

theorem parseLoopF_atom_step (f : Nat) (acc : List SExpr) (x rest : List Nat)
    (r2 : SExpr × List Nat)
    (h2 : parseLoopF (f + 1) (acc ++ [SExpr.atom x]) rest = .ok r2) :
    parseLoopF (f + 2) acc (serializeAtom x ++ rest) = .ok r2 := by
  obtain ⟨c, cs, hcc⟩ := List.exists_cons_of_ne_nil (decRepr_ne_nil x.length)
  have hc : 48 ≤ c ∧ c ≤ 57 := decRepr_digits x.length c (by rw [hcc]; simp)
  have hshape : serializeAtom x ++ rest = c :: ((cs ++ 58 :: x) ++ rest) := by
    simp [serializeAtom, hcc]
  rw [hshape]
  exact parseLoopF_step (f + 1) acc c _ (.atom x) rest r2 (by omega)
    (hshape ▸ parseF_atom f x rest) h2

theorem parse_mono : ∀ f : Nat,
    (∀ s v r f2, f ≤ f2 → parseF f s = .ok (v, r) → parseF f2 s = .ok (v, r)) ∧
    (∀ acc s v r f2, f ≤ f2 → parseLoopF f acc s = .ok (v, r) →
      parseLoopF f2 acc s = .ok (v, r)) := by
  intro f
  induction f with
  | zero =>
    constructor
    · intro s v r f2 _ hok
      simp [parseF] at hok
    · intro acc s v r f2 _ hok
      simp [parseLoopF] at hok
  | succ f ih =>
    obtain ⟨ihF, ihL⟩ := ih
    constructor
    · intro s v r f2 hle hok
      cases f2 with
      | zero => omega
      | succ f2 =>
        cases s with
        | nil => simp [parseF] at hok
        | cons c t =>
          by_cases hc : c = 40
          · simp only [parseF, if_pos hc] at hok ⊢
            cases hpt : parse_term t with
            | error e => rw [hpt] at hok; exact absurd hok (by simp)
            | ok p =>
              obtain ⟨name, rest⟩ := p
              rw [hpt] at hok
              exact ihL _ _ _ _ _ (by omega) hok
          · simp only [parseF, if_neg hc] at hok ⊢
            exact hok
    · intro acc s v r f2 hle hok
      cases f2 with
      | zero => omega
      | succ f2 =>
        cases s with
        | nil => simp [parseLoopF] at hok
        | cons c t =>
          by_cases hc : c = 41
          · simp only [parseLoopF, if_pos hc] at hok ⊢
            exact hok
          · simp only [parseLoopF, if_neg hc] at hok ⊢
            cases hpf : parseF f (c :: t) with
            | error e => rw [hpf] at hok; exact absurd hok (by simp)
            | ok p =>
              obtain ⟨v1, s2⟩ := p
              rw [hpf] at hok
              rw [ihF _ v1 s2 _ (by omega) hpf]
              exact ihL _ _ _ _ _ (by omega) hok

theorem parse_term_short (x : List Nat) (n : Nat) (h : x.length ≤ n) :
    parse_term (decRepr n ++ 58 :: x) = .ok (x, []) := by
  have hsp := splitFirst_append 58 (decRepr n) x (fun c hcp => by
    have := decRepr_digits n c hcp; omega)
  have h1 : ¬ ((n : Int) < 0) := by omega
  simp only [parse_term, hsp, pyInt_decRepr, pyTake, pyDrop, if_neg h1, Int.toNat_ofNat]
  rw [List.take_of_length_le h, List.drop_of_length_le h]

theorem parse_sigvalWire (rb sb : List Nat) (g : Nat) :
    parseF (g + 8) (sigvalWire rb sb) = .ok (sigvalExpr rb sb, []) := by
  have hs3 : parseF (g + 3)
      ([40, 49, 58, 115] ++ (serializeAtom sb ++ [41, 41, 41])) =
      .ok (.list [.atom chS, .atom sb], [41, 41]) := by
    have hl : parseLoopF (g + 2) [SExpr.atom chS] (serializeAtom sb ++ [41, 41, 41]) =
        .ok (.list [.atom chS, .atom sb], [41, 41]) :=
      parseLoopF_atom_step g _ sb _ _ (parseLoopF_close g _ _)
    refine parseF_list (g + 2) _ chS _ _ _ ?_ hl
    rfl
  have hr4 : parseF (g + 4)
      ([40, 49, 58, 114] ++ (serializeAtom rb ++ (41 :: ([40, 49, 58, 115] ++
        (serializeAtom sb ++ [41, 41, 41]))))) =
      .ok (.list [.atom chR, .atom rb],
        [40, 49, 58, 115] ++ (serializeAtom sb ++ [41, 41, 41])) := by
    have hl : parseLoopF (g + 3) [SExpr.atom chR]
        (serializeAtom rb ++ (41 :: ([40, 49, 58, 115] ++ (serializeAtom sb ++ [41, 41, 41])))) =
        .ok (.list [.atom chR, .atom rb],
          [40, 49, 58, 115] ++ (serializeAtom sb ++ [41, 41, 41])) :=
      parseLoopF_atom_step (g + 1) _ rb _ _ (parseLoopF_close (g + 1) _ _)
    refine parseF_list (g + 3) _ chR _ _ _ ?_ hl
    rfl
  have hecdsa : parseF (g + 6)
      ([40, 53, 58] ++ (chEcdsa ++ ([40, 49, 58, 114] ++ (serializeAtom rb ++
        (41 :: ([40, 49, 58, 115] ++ (serializeAtom sb ++ [41, 41, 41]))))))) =
      .ok (.list [.atom chEcdsa, .list [.atom chR, .atom rb],
        .list [.atom chS, .atom sb]], [41]) := by
    have hl2 : parseLoopF (g + 4)
        [SExpr.atom chEcdsa, .list [.atom chR, .atom rb]]
        ([40, 49, 58, 115] ++ (serializeAtom sb ++ [41, 41, 41])) =
        .ok (.list [.atom chEcdsa, .list [.atom chR, .atom rb],
          .list [.atom chS, .atom sb]], [41]) := by
      refine parseLoopF_step (g + 3) _ 40 _ _ _ _ (by omega) hs3 ?_
      exact parseLoopF_close (g + 2) _ _
    have hl1 : parseLoopF (g + 5) [SExpr.atom chEcdsa]
        ([40, 49, 58, 114] ++ (serializeAtom rb ++ (41 :: ([40, 49, 58, 115] ++
          (serializeAtom sb ++ [41, 41, 41]))))) =
        .ok (.list [.atom chEcdsa, .list [.atom chR, .atom rb],
          .list [.atom chS, .atom sb]], [41]) := by
      refine parseLoopF_step (g + 4) _ 40 _ _ _ _ (by omega) hr4 hl2
    refine parseF_list (g + 5) _ chEcdsa _ _ _ ?_ hl1
    rfl
  have htop : parseLoopF (g + 7) [SExpr.atom chSigVal]
      ([40, 53, 58] ++ (chEcdsa ++ ([40, 49, 58, 114] ++ (serializeAtom rb ++
        (41 :: ([40, 49, 58, 115] ++ (serializeAtom sb ++ [41, 41, 41]))))))) =
      .ok (sigvalExpr rb sb, []) := by
    refine parseLoopF_step (g + 6) _ 40 _ _ _ _ (by omega) hecdsa ?_
    exact parseLoopF_close (g + 5) _ _
  refine parseF_list (g + 7) _ chSigVal _ _ _ ?_ htop
  rfl

theorem parse_valueWire (q : List Nat) (g : Nat) :
    parseF (g + 4) ([40, 53, 58, 118, 97, 108, 117, 101] ++ (serializeAtom q ++ [41])) =
      .ok (.list [.atom chValue, .atom q], []) := by
  have hloop : parseLoopF (g + 3) [SExpr.atom chValue] (serializeAtom q ++ [41]) =
      .ok (.list [.atom chValue, .atom q], []) :=
    parseLoopF_atom_step (g + 1) _ q _ _ (parseLoopF_close g _ _)
  refine parseF_list (g + 3) _ chValue _ _ _ ?_ hloop
  rfl

/-! ### Escaping lemmas -/

theorem escape_cons (b : Nat) (s : List Nat) :
    escape (b :: s) =
      (if b = 37 then [37, 50, 53] else if b = 10 then [37, 48, 65]
       else if b = 13 then [37, 48, 68] else [b]) ++ escape s := by
  by_cases h37 : b = 37
  · subst h37; simp [escape, replaceByte]
  · by_cases h10 : b = 10
    · subst h10; simp [escape, replaceByte]
    · by_cases h13 : b = 13
      · subst h13; simp [escape, replaceByte]
      · simp [escape, replaceByte, h37, h10, h13]

theorem escape_append (a b : List Nat) : escape (a ++ b) = escape a ++ escape b := by
  simp [escape, replaceByte, List.flatMap_append]

theorem unescape_cons_ne (c : Nat) (l : List Nat) (hc : c ≠ 37) :
    unescape (c :: l) = (unescape l).map (fun t => c :: t) := by
  rw [unescape.eq_def]
  simp only [if_neg hc]
  cases h : unescape l <;> rfl

theorem unescape_noPct (l m : List Nat) (hl : ∀ c ∈ l, c ≠ 37) :
    unescape (l ++ m) = (unescape m).map (fun t => l ++ t) := by
  induction l with
  | nil =>
    simp only [List.nil_append]
    cases h : unescape m <;> rfl
  | cons c l ih =>
    rw [List.cons_append, unescape_cons_ne c _ (hl c (by simp)),
      ih (fun d hd => hl d (by simp [hd]))]
    cases unescape m <;> rfl

theorem unescape_pct (d1 d2 v : Nat) (l : List Nat) (hv : v < 256)
    (h : pyInt 16 [d1, d2] = some (v : Int)) :
    unescape (37 :: d1 :: d2 :: l) = (unescape l).map (fun t => v :: t) := by
  have hcond : (0 : Int) ≤ (v : Int) ∧ (v : Int) < 256 := ⟨by omega, by omega⟩
  simp only [unescape, if_pos rfl, h, if_pos hcond]
  cases unescape l <;> rfl

theorem unescape_escape (x m : List Nat) :
    unescape (escape x ++ m) = (unescape m).map (fun t => x ++ t) := by
  induction x with
  | nil =>
    rw [show escape [] = [] from rfl, List.nil_append]
    cases h : unescape m <;> rfl
  | cons b x ih =>
    rw [escape_cons, List.append_assoc]
    by_cases h37 : b = 37
    · subst h37
      rw [if_pos rfl,
        show ([37, 50, 53] : List Nat) ++ (escape x ++ m) =
          37 :: 50 :: 53 :: (escape x ++ m) from rfl,
        unescape_pct 50 53 37 _ (by omega) rfl, ih]
      cases unescape m <;> rfl
    · rw [if_neg h37]
      by_cases h10 : b = 10
      · subst h10
        rw [if_pos rfl,
          show ([37, 48, 65] : List Nat) ++ (escape x ++ m) =
            37 :: 48 :: 65 :: (escape x ++ m) from rfl,
          unescape_pct 48 65 10 _ (by omega) rfl, ih]
        cases unescape m <;> rfl
      · rw [if_neg h10]
        by_cases h13 : b = 13
        · subst h13
          rw [if_pos rfl,
            show ([37, 48, 68] : List Nat) ++ (escape x ++ m) =
              37 :: 48 :: 68 :: (escape x ++ m) from rfl,
            unescape_pct 48 68 13 _ (by omega) rfl, ih]
          cases unescape m <;> rfl
        · rw [if_neg h13,
            show ([b] : List Nat) ++ (escape x ++ m) = b :: (escape x ++ m) from rfl,
            unescape_cons_ne b _ h37, ih]
          cases unescape m <;> rfl

theorem unescape_escape_ok (x : List Nat) : unescape (escape x) = .ok x := by
  have h := unescape_escape x []
  rw [List.append_nil] at h
  rw [h]
  show Except.ok (x ++ []) = Except.ok x
  rw [List.append_nil]

theorem pyStripWS_ends (a b : Nat) (m : List Nat)
    (ha : isPySpace a = false) (hb : isPySpace b = false) :
    pyStripWS (a :: (m ++ [b])) = a :: (m ++ [b]) := by
  unfold pyStripWS
  rw [List.dropWhile_cons_of_neg (by simp [ha])]
  have hrev : (a :: (m ++ [b])).reverse = b :: (m.reverse ++ [a]) := by simp
  rw [hrev, List.dropWhile_cons_of_neg (by simp [hb]), ← hrev, List.reverse_reverse]

theorem not_space_ge (c : Nat) (h : 33 ≤ c) : isPySpace c = false := by
  simp only [isPySpace, Bool.or_eq_false_iff, decide_eq_false_iff_not]
  omega

theorem digitVal16_facts (d v : Nat) (h : digitVal 16 d = some v) :
    48 ≤ d ∧ v < 16 := by
  unfold digitVal at h
  split_ifs at h with h1 h2 h3
  all_goals (injection h with hv; omega)

theorem digitsValue16_single (d v : Nat) (h : digitVal 16 d = some v) :
    digitsValue 16 [d] = some v := by
  unfold digitsValue
  rw [if_pos ⟨by simp, by simp [h]⟩]
  simp [h]

theorem stripHexPfx16_single (d : Nat) : stripHexPfx 16 [d] = [d] := by
  unfold stripHexPfx
  rw [if_pos rfl]
  split
  · next c rest heq => simp at heq
  · rfl

theorem pyInt16_hexdigit (d v : Nat) (h : digitVal 16 d = some v) :
    pyInt 16 [d] = some (v : Int) := by
  obtain ⟨h48, hv16⟩ := digitVal16_facts d v h
  have hs : pyStripWS [d] = [d] :=
    pyStripWS_eq_self _ (by
      intro c hc
      simp at hc
      rw [hc]
      exact not_space_ge d (by omega))
  simp only [pyInt, hs, if_neg (show ¬ d = 43 by omega),
    if_neg (show ¬ d = 45 by omega), stripHexPfx16_single,
    digitsValue16_single d v h]
  rfl

theorem unescape_pct_one_ok (d : Nat) (v : Int) (h : pyInt 16 [d] = some v)
    (hv : 0 ≤ v ∧ v < 256) : unescape [37, d] = .ok [v.toNat] := by
  rw [unescape.eq_def]
  simp only [if_pos rfl, if_true, h, if_pos hv]

theorem unescape_pct_one_err (d : Nat) (h : pyInt 16 [d] = none) :
    unescape [37, d] = .error .valueError := by
  rw [unescape.eq_def]
  simp only [if_pos rfl, if_true, h]

theorem unescape_pct_two_ok (d1 d2 : Nat) (v : Int) (l : List Nat)
    (h : pyInt 16 [d1, d2] = some v) (hv : 0 ≤ v ∧ v < 256) :
    unescape (37 :: d1 :: d2 :: l) = (unescape l).map (fun t => v.toNat :: t) := by
  rw [unescape.eq_def]
  simp only [if_pos rfl, if_true, h, if_pos hv]
  cases unescape l <;> rfl

theorem unescape_pct_two_oor (d1 d2 : Nat) (v : Int) (l : List Nat)
    (h : pyInt 16 [d1, d2] = some v) (hv : ¬ (0 ≤ v ∧ v < 256)) :
    unescape (37 :: d1 :: d2 :: l) = .error .valueError := by
  rw [unescape.eq_def]
  simp only [if_pos rfl, if_true, h, if_neg hv]

theorem unescape_pct_two_err (d1 d2 : Nat) (l : List Nat)
    (h : pyInt 16 [d1, d2] = none) :
    unescape (37 :: d1 :: d2 :: l) = .error .valueError := by
  rw [unescape.eq_def]
  simp only [if_pos rfl, if_true, h]

theorem sign_script (keygrip digest tty line0 : List Nat)
    (h32 : digest.length = 32) :
    sign keygrip digest tty [chOK, chOK, chOK, chOK, chOK, chOK, line0] =
      match unescape (pyStripWS line0) with
      | .error e => .error e
      | .ok line =>
        match splitFirst 32 line with
        | none => .error .valueError
        | some (pfx, sg) =>
          if pfx ≠ [68] then .error .valueError
          else
            match pparse sg with
            | .error e => .error e
            | .ok (sexp, leftover) =>
              if leftover ≠ [] then .error .assertionError
              else parse_sig sexp := by
  unfold sign
  rw [if_neg (by omega)]
  rfl

/-! ### Claim theorems -/

/-- C1: serializing any byte sequence of length at most 4096 as a
canonical atom `<decimal length>:<raw bytes>` and parsing the result
yields exactly that atom with an empty remainder. -/
theorem c1_atom_roundtrip (x : List Nat) (hlen : x.length ≤ 4096) :
    pparse (serializeAtom x) = .ok (.atom x, []) := by
  unfold pparse
  have h := parseF_atom (2 * (serializeAtom x).length) x []
  rw [List.append_nil] at h
  exact h

/-- Witness for C1 at the concrete atom `"abc"`. -/
theorem c1_atom_roundtrip_witness :
    ([97, 98, 99] : List Nat).length ≤ 4096 ∧
      pparse (serializeAtom [97, 98, 99]) = .ok (.atom [97, 98, 99], []) :=
  ⟨by decide, c1_atom_roundtrip [97, 98, 99] (by decide)⟩

/-- C2: unescaping the percent-escaped form of any byte sequence returns
the original sequence. -/
theorem c2_unescape_escape_roundtrip (x : List Nat) : unescape (escape x) = .ok x :=
  unescape_escape_ok x

/-- Counterexample to C3 as stated: the buffer `"5:ab"` declares length 5
but only 2 bytes follow the colon, yet parsing does not fail — it returns
the truncated atom `"ab"` (shorter than the declared length) with an
empty remainder. -/
theorem c3_shortfall_counterexample :
    pparse [53, 58, 97, 98] = .ok (.atom [97, 98], []) ∧
      parse_term [53, 58, 97, 98] = .ok ([97, 98], []) ∧ (2 : Nat) < 5 :=
  ⟨rfl, rfl, by decide⟩

/-- C3 amended: when the atom length field declares `n` but fewer than
`n` bytes follow the colon, parsing succeeds and returns all bytes after
the colon (a value shorter than `n`) with an empty remainder — the
Python slices truncate silently. -/
theorem c3_shortfall_truncates (x : List Nat) (n : Nat) (h : x.length < n) :
    pparse (decRepr n ++ 58 :: x) = .ok (.atom x, []) := by
  unfold pparse
  obtain ⟨c, cs, hcc⟩ := List.exists_cons_of_ne_nil (decRepr_ne_nil n)
  have hc := decRepr_digits n c (by rw [hcc]; simp)
  have hshape : decRepr n ++ 58 :: x = c :: (cs ++ 58 :: x) := by rw [hcc]; rfl
  rw [hshape]
  refine parseF_of_parse_term _ c _ x [] (by omega) ?_
  rw [← hshape]
  exact parse_term_short x n (by omega)

/-- Witness for the amended C3 at the concrete buffer `"5:ab"`. -/
theorem c3_shortfall_truncates_witness :
    ([97, 98] : List Nat).length < 5 ∧
      pparse (decRepr 5 ++ 58 :: [97, 98]) = .ok (.atom [97, 98], []) :=
  ⟨by decide, c3_shortfall_truncates [97, 98] 5 (by decide)⟩

/-- Counterexample to C4 as stated, refuting both of its disjuncts: in
`"%A"` the `%` is followed by fewer than two bytes, yet unescape
succeeds (Python `int("A", 16)` accepts the single digit) and produces
`[10]`; in `"% 5"` the `%` is followed by two bytes of which the space
is not a hex digit, yet unescape succeeds (`int(" 5", 16)` strips the
whitespace) and produces `[5]`. -/
theorem c4_escape_error_counterexample :
    unescape [37, 65] = .ok [10] ∧ unescape [37, 32, 53] = .ok [5] :=
  ⟨rfl, rfl⟩

/-- C4 amended: after a `%`, `_unescape` hands the next (up to two)
bytes to Python `int(.., 16)` and fails exactly when that parse is
rejected or the value falls outside a byte.  In full: a `%` as the last
input byte fails with `ValueError`; a `%` followed by exactly one final
byte succeeds when that byte is a hex digit (`0-9`, `a-f`, `A-F`),
consuming it and substituting its value, and fails when `int` rejects
it; a `%` followed by two bytes substitutes the decoded byte and
continues exactly when `int` accepts the pair with a value in 0..255
(its whitespace/sign leniency admits forms such as `"% 5"` and
`"%+5"`), fails with `ValueError` when `int` rejects the pair, and
fails with `ValueError` when the accepted value is outside 0..255
(e.g. `"%-1"`). -/
theorem c4_unescape_lenient (pre : List Nat) (hpre : ∀ c ∈ pre, c ≠ 37) :
    unescape (pre ++ [37]) = .error .valueError ∧
    (∀ d v, digitVal 16 d = some v → unescape (pre ++ [37, d]) = .ok (pre ++ [v])) ∧
    (∀ d, pyInt 16 [d] = none → unescape (pre ++ [37, d]) = .error .valueError) ∧
    (∀ d1 d2 rest (v : Int), pyInt 16 [d1, d2] = some v → 0 ≤ v ∧ v < 256 →
      unescape (pre ++ 37 :: d1 :: d2 :: rest) =
        (unescape rest).map (fun t => pre ++ v.toNat :: t)) ∧
    (∀ d1 d2 rest (v : Int), pyInt 16 [d1, d2] = some v → ¬ (0 ≤ v ∧ v < 256) →
      unescape (pre ++ 37 :: d1 :: d2 :: rest) = .error .valueError) ∧
    (∀ d1 d2 rest, pyInt 16 [d1, d2] = none →
      unescape (pre ++ 37 :: d1 :: d2 :: rest) = .error .valueError) := by
  refine ⟨?_, ?_, ?_, ?_, ?_, ?_⟩
  · rw [unescape_noPct pre [37] hpre]
    rfl
  · intro d v h
    obtain ⟨h48, hv16⟩ := digitVal16_facts d v h
    rw [unescape_noPct pre [37, d] hpre,
      unescape_pct_one_ok d (v : Int) (pyInt16_hexdigit d v h) ⟨by omega, by omega⟩]
    rfl
  · intro d h
    rw [unescape_noPct pre [37, d] hpre, unescape_pct_one_err d h]
    rfl
  · intro d1 d2 rest v h hv
    rw [unescape_noPct pre _ hpre, unescape_pct_two_ok d1 d2 v rest h hv]
    cases unescape rest <;> rfl
  · intro d1 d2 rest v h hv
    rw [unescape_noPct pre _ hpre, unescape_pct_two_oor d1 d2 v rest h hv]
    rfl
  · intro d1 d2 rest h
    rw [unescape_noPct pre _ hpre, unescape_pct_two_err d1 d2 rest h]
    rfl

/-- Witness for the amended C4, one instance per conjunct: `"ab%"`
(trailing percent), `"ab%f"` (single trailing hex letter), `"ab%%"`
(rejected single byte), `"ab% 56"` (lenient two-byte form, scan
continues), `"ab%-1"` (value out of range), `"ab%xy"` (rejected
pair). -/
theorem c4_unescape_lenient_witness :
    (∀ c ∈ ([97, 98] : List Nat), c ≠ 37) ∧
    unescape [97, 98, 37] = .error .valueError ∧
    unescape [97, 98, 37, 102] = .ok [97, 98, 15] ∧
    unescape [97, 98, 37, 37] = .error .valueError ∧
    unescape [97, 98, 37, 32, 53, 54] = .ok [97, 98, 5, 54] ∧
    unescape [97, 98, 37, 45, 49] = .error .valueError ∧
    unescape [97, 98, 37, 120, 121] = .error .valueError :=
  ⟨by decide,
    (c4_unescape_lenient [97, 98] (by decide)).1,
    (c4_unescape_lenient [97, 98] (by decide)).2.1 102 15 (by decide),
    (c4_unescape_lenient [97, 98] (by decide)).2.2.1 37 (by decide),
    (c4_unescape_lenient [97, 98] (by decide)).2.2.2.1 32 53 [54] 5 (by decide) (by decide),
    (c4_unescape_lenient [97, 98] (by decide)).2.2.2.2.1 45 49 [] (-1) (by decide) (by decide),
    (c4_unescape_lenient [97, 98] (by decide)).2.2.2.2.2 120 121 [] (by decide)⟩

/-- C5: `_parse_sig` of `("sig-val" ("rsa" ("s" b)))` returns the single
RSA component: `b` as an unsigned big-endian integer. -/
theorem c5_rsa_sig_value (b : List Nat) :
    parse_sig (.list [.atom chSigVal, .list [.atom chRsa, .list [.atom chS, .atom b]]]) =
      .ok [bytes2num b] := rfl

/-- C6: a well-formed `sig-val` whose algorithm tag is neither `"rsa"`
nor `"ecdsa"` fails with `KeyError` (the UnsupportedAlgorithm failure of
the spec) from the algorithm-dispatch dict lookup. -/
theorem c6_unsupported_algo (algo : List Nat) (args : List SExpr)
    (h1 : algo ≠ chRsa) (h2 : algo ≠ chEcdsa) :
    parse_sig (.list [.atom chSigVal, .list (.atom algo :: args)]) = .error .keyError := by
  simp [parse_sig, unpack2, eqAtom, pyGet0, h1, h2]

/-- Witness for C6 with the algorithm tag `"dsa"`. -/
theorem c6_unsupported_algo_witness :
    parse_sig (.list [.atom chSigVal,
      .list (.atom [100, 115, 97] :: [.list [.atom chS, .atom [1]]])]) = .error .keyError :=
  c6_unsupported_algo [100, 115, 97] [.list [.atom chS, .atom [1]]] (by decide) (by decide)

/-- C7: an `ecdsa` `sig-val` whose two labelled children are `"s"` then
`"r"` (swapped order) fails with `AssertionError` (the MalformedSignature
failure of the spec) at the `assert r == 'r'` check. -/
theorem c7_ecdsa_swapped_labels (b1 b2 : List Nat) :
    parse_sig (.list [.atom chSigVal, .list [.atom chEcdsa,
      .list [.atom chS, .atom b1], .list [.atom chR, .atom b2]]]) =
      .error .assertionError := rfl

/-- C8: with a 32-byte digest, a 40-hex-character keygrip, and a
transport whose scripted replies are `"OK"` for the six handshake
commands followed by one data line `"D "` plus the escaped canonical
`("sig-val" ("ecdsa" ("r" rb) ("s" sb)))` S-expression, the client sign
operation succeeds and returns the two components `r` and `s` as
unsigned big-endian integers. -/
theorem c8_sign_handshake (keygrip digest tty rb sb : List Nat)
    (hdig : digest.length = 32) (hkglen : keygrip.length = 40)
    (hkghex : ∀ c ∈ keygrip, (digitVal 16 c).isSome) :
    sign keygrip digest tty
      [chOK, chOK, chOK, chOK, chOK, chOK, [68, 32] ++ escape (sigvalWire rb sb)] =
      .ok [bytes2num rb, bytes2num sb] := by
  have h32 : ¬ digest.length ≠ 32 := by omega
  have hbody : sigvalWire rb sb =
      ([40, 55, 58] ++ (chSigVal ++ ([40, 53, 58] ++ (chEcdsa ++
        ([40, 49, 58, 114] ++ (serializeAtom rb ++ (41 :: ([40, 49, 58, 115] ++
          (serializeAtom sb ++ [41, 41]))))))))) ++ [41] := by
    simp [sigvalWire]
  have hesc : escape (sigvalWire rb sb) =
      escape ([40, 55, 58] ++ (chSigVal ++ ([40, 53, 58] ++ (chEcdsa ++
        ([40, 49, 58, 114] ++ (serializeAtom rb ++ (41 :: ([40, 49, 58, 115] ++
          (serializeAtom sb ++ [41, 41]))))))))) ++ [41] := by
    rw [hbody, escape_append]
    rfl
  have hform : [68, 32] ++ escape (sigvalWire rb sb) =
      68 :: ((32 :: escape ([40, 55, 58] ++ (chSigVal ++ ([40, 53, 58] ++ (chEcdsa ++
        ([40, 49, 58, 114] ++ (serializeAtom rb ++ (41 :: ([40, 49, 58, 115] ++
          (serializeAtom sb ++ [41, 41])))))))))) ++ [41]) := by
    rw [hesc]
    simp
  have hstrip : pyStripWS ([68, 32] ++ escape (sigvalWire rb sb)) =
      [68, 32] ++ escape (sigvalWire rb sb) := by
    rw [hform, pyStripWS_ends 68 41 _ rfl rfl]
  have hun : unescape ([68, 32] ++ escape (sigvalWire rb sb)) =
      .ok ([68, 32] ++ sigvalWire rb sb) := by
    rw [unescape_noPct [68, 32] _ (by decide), unescape_escape_ok]
    rfl
  have hline : unescape (pyStripWS ([68, 32] ++ escape (sigvalWire rb sb))) =
      .ok ([68, 32] ++ sigvalWire rb sb) := by
    rw [hstrip, hun]
  have hlen4 : 4 ≤ (sigvalWire rb sb).length := by
    simp [sigvalWire]
    omega
  have hparse : pparse (sigvalWire rb sb) = .ok (sigvalExpr rb sb, []) := by
    unfold pparse
    exact (parse_mono 8).1 _ _ _ _ (by omega) (parse_sigvalWire rb sb 0)
  rw [sign_script keygrip digest tty _ hdig, hline]
  show (match pparse (sigvalWire rb sb) with
    | .error e => .error e
    | .ok (sexp, leftover) =>
      if leftover ≠ [] then Except.error PyErr.assertionError
      else parse_sig sexp) = Except.ok [bytes2num rb, bytes2num sb]
  rw [hparse]
  rfl

/-- Witness for C8: all-zero digest, keygrip `"AAAA...A"` (40 hex
characters), and signature components `[1, 2]` and `[3, 4]`. -/
theorem c8_sign_handshake_witness :
    (List.replicate 32 0).length = 32 ∧ (List.replicate 40 65).length = 40 ∧
      (∀ c ∈ List.replicate 40 65, (digitVal 16 c).isSome) ∧
      sign (List.replicate 40 65) (List.replicate 32 0) []
        [chOK, chOK, chOK, chOK, chOK, chOK,
          [68, 32] ++ escape (sigvalWire [1, 2] [3, 4])] =
        .ok [bytes2num [1, 2], bytes2num [3, 4]] :=
  ⟨by decide, by decide, by decide,
    c8_sign_handshake (List.replicate 40 65) (List.replicate 32 0) [] [1, 2] [3, 4]
      (by decide) (by decide) (by decide)⟩

/-- C9: for any signing capability whose returned point is 65 bytes and
starts with `0x04`, the server's PKDECRYPT exchange ends with a `"D "`
data line carrying the escaped `(5:value<65:point>)` S-expression: the
transcript is exactly greeting, command, inquiry, data line, final
reply, and unescaping the reply payload and parsing it yields the list
named `"value"` whose single atom is the exact point. -/
theorem c9_pkdecrypt_roundtrip (signer : List Nat → List Nat)
    (version agentId : List Nat)
    (hlen : ∀ c, (signer c).length = 65) (hpt : ∀ c, (signer c).take 1 = [4]) :
    handleConn signer version agentId [cmdPkDecrypt, [68, 32] ++ encWire] =
      ([.sent greetingMsg, .received cmdPkDecrypt, .sent inquireMsg,
        .received ([68, 32] ++ encWire),
        .sent (dMsg (serialize_point (signer [120])))], none) ∧
      unescape (serialize_point (signer [120])) =
        .ok ([40, 53, 58, 118, 97, 108, 117, 101] ++
          (serializeAtom (signer [120]) ++ [41])) ∧
      pparse ([40, 53, 58, 118, 97, 108, 117, 101] ++
          (serializeAtom (signer [120]) ++ [41])) =
        .ok (.list [.atom chValue, .atom (signer [120])], []) := by
  have hq65 := hlen [120]
  have hq4 := hpt [120]
  have key : connLoop signer version agentId [cmdPkDecrypt, [68, 32] ++ encWire] =
      (if (signer [120]).length ≠ 65 then
        ([.received cmdPkDecrypt, .sent inquireMsg, .received ([68, 32] ++ encWire)],
          some .assertionError)
      else if (signer [120]).take 1 ≠ [4] then
        ([.received cmdPkDecrypt, .sent inquireMsg, .received ([68, 32] ++ encWire)],
          some .assertionError)
      else
        ([.received cmdPkDecrypt, .sent inquireMsg, .received ([68, 32] ++ encWire)] ++
          [.sent (dMsg (serialize_point (signer [120])))], none)) := rfl
  refine ⟨?_, ?_, ?_⟩
  · show (Event.sent greetingMsg ::
        (connLoop signer version agentId [cmdPkDecrypt, [68, 32] ++ encWire]).fst,
      (connLoop signer version agentId [cmdPkDecrypt, [68, 32] ++ encWire]).snd) = _
    rw [key, if_neg (by simp [hq65]), if_neg (by simp [hq4])]
    rfl
  · unfold serialize_point
    rw [List.append_assoc, unescape_noPct _ _ (by decide), unescape_escape]
    rfl
  · unfold pparse
    refine (parse_mono 4).1 _ _ _ _ ?_ (parse_valueWire (signer [120]) 0)
    have : 2 ≤ ([40, 53, 58, 118, 97, 108, 117, 101] ++
        (serializeAtom (signer [120]) ++ [41])).length := by
      simp
    omega

/-- Witness for C9 with the constant capability returning the point
`0x04` followed by 64 zero bytes. -/
theorem c9_pkdecrypt_roundtrip_witness :
    (∀ c : List Nat, ((fun _ => 4 :: List.replicate 64 0) c : List Nat).length = 65) ∧
      handleConn (fun _ => 4 :: List.replicate 64 0) [] []
          [cmdPkDecrypt, [68, 32] ++ encWire] =
        ([.sent greetingMsg, .received cmdPkDecrypt, .sent inquireMsg,
          .received ([68, 32] ++ encWire),
          .sent (dMsg (serialize_point ((fun _ => 4 :: List.replicate 64 0) ([120] : List Nat))))],
          none) :=
  ⟨fun _ => rfl,
    (c9_pkdecrypt_roundtrip (fun _ => 4 :: List.replicate 64 0) [] []
      (fun _ => rfl) (fun _ => rfl)).1⟩

/-- C10: on every accepted connection the server's very first transcript
event is sending the greeting line `"OK pleased to see you\n"` — before
any command is read and before any per-command reply. -/
theorem c10_greeting_first (signer : List Nat → List Nat)
    (version agentId : List Nat) (inputs : List (List Nat)) :
    (handleConn signer version agentId inputs).fst.head? =
      some (.sent greetingMsg) := rfl

end GpgAgent
